import Mathlib

/-!
Shallow embedding of the process-group lifecycle and collective-dispatch layer
of `src/distributed/distributed_c10d.py`.

Python dictionaries are modelled as insertion-ordered association lists
(`assocInsert` updates a present key in place, as Python `d[k] = v` does;
`assocLookup` finds the entry of a key; iteration order is list order).
Machine integers are `Nat`/`Int`; Python exceptions are `Except` results; for
functions that mutate module-level registries before raising we return the
updated state together with the `Except` outcome.  The opaque transport
(`ProcessGroup` backends) is a record of abstract functions: this layer never
inspects it, only dispatches to it.
-/

namespace DistC10d

/-- Association-list lookup: the value stored at key `k`, if any. -/
def assocLookup {κ α : Type} [DecidableEq κ] : List (κ × α) → κ → Option α
  | [], _ => none
  | (k, v) :: rest, k' => if k = k' then some v else assocLookup rest k'

/-- Association-list update, mirroring Python `d[k] = v`: an existing key keeps
its position and gets the new value, a new key is appended. -/
def assocInsert {κ α : Type} [DecidableEq κ] : List (κ × α) → κ → α → List (κ × α)
  | [], k', v' => [(k', v')]
  | (k, v) :: rest, k', v' =>
      if k = k' then (k', v') :: rest else (k, v) :: assocInsert rest k' v'

/-- Association-list deletion, mirroring Python `del d[k]`. -/
def assocErase {κ α : Type} [DecidableEq κ] : List (κ × α) → κ → List (κ × α)
  | [], _ => []
  | (k, v) :: rest, k' => if k = k' then rest else (k, v) :: assocErase rest k'

/-- Python `str.upper()` on ASCII names. -/
def strUpper (s : String) : String := String.mk (s.data.map Char.toUpper)

/-- The reduction kinds of `ReduceOp` used by this layer. -/
inductive ReduceOp where
  | SUM | PRODUCT | MIN | MAX | BAND | BOR | BXOR
deriving DecidableEq, Repr

/-- The deny list of `supports_complex`. -/
def denyList : List ReduceOp :=
  [ReduceOp.MAX, ReduceOp.MIN, ReduceOp.PRODUCT,
   ReduceOp.BAND, ReduceOp.BOR, ReduceOp.BXOR]

/-- `supports_complex(reduceOp)`: whether a reduction kind is allowed on
complex tensors. -/
def supports_complex (reduceOp : ReduceOp) : Bool :=
  decide (reduceOp ∉ denyList)

/-- A tensor: a complex-ness flag plus abstract element data.  `view_as_real`
reinterprets the same storage as real, so only the flag changes. -/
structure Tensor where
  isComplex : Bool
  data : List Int
deriving DecidableEq, Repr

/-- `torch.view_as_real`: reinterpret a complex tensor as a real view of the
same storage. -/
def view_as_real (t : Tensor) : Tensor := { t with isComplex := false }

/-- The errors this layer raises (each constructor names one `RuntimeError` /
`ValueError` site of the source). -/
inductive DistErr where
  | deprecatedTCP
  | invalidBackend (name : String)
  | alreadyInitialized
  | notInitialized
  | duplicateGroupName
  | invalidProcessGroup
  | worldNoRankMap
  | groupNotExists
  | globalRankNotInGroup
  | groupRankNotInGroup
  | keyError
  | assertionFailed
  | mpiNotAvailable
  | groupTooLarge
  | rankOutOfRange
  | unsupportedAsync
  | complexUnsupported (op : ReduceOp)
  | gatherListMissingOnDst
  | gatherListOnNonDst
  | scatterListMissingOnSrc
  | scatterListOnNonSrc
  | deviceIdsWrongBackend
deriving DecidableEq, Repr

/-- String constants of the `Backend` enum-like class. -/
def backendUNDEFINED : String := "undefined"

def backendGLOO : String := "gloo"

def backendNCCL : String := "nccl"

def backendMPI : String := "mpi"

def backendTCP : String := "tcp"

def backendHCCL : String := "hccl"

/-- `getattr(Backend, u, Backend.UNDEFINED)` restricted to the string-valued
class attributes (method names are lowercase, hence never hit by `u.upper()`). -/
def backendAttr (u : String) : Option String :=
  if u = "UNDEFINED" then some backendUNDEFINED
  else if u = "GLOO" then some backendGLOO
  else if u = "NCCL" then some backendNCCL
  else if u = "MPI" then some backendMPI
  else if u = "TCP" then some backendTCP
  else if u = "HCCL" then some backendHCCL
  else none

/-- `Backend.__new__`: resolve a backend name string. -/
def backendNew (name : String) : Except DistErr String :=
  let value := (backendAttr (strUpper name)).getD backendUNDEFINED
  if value = backendTCP then .error .deprecatedTCP
  else if value = backendUNDEFINED then .error (.invalidBackend name)
  else if value ≠ backendGLOO ∧ value ≠ backendNCCL ∧ value ≠ backendMPI then .ok name
  else .ok value

/-- Availability flags, as set when all backend imports succeed. -/
def MPI_AVAILABLE : Bool := true

def NCCL_AVAILABLE : Bool := true

def HCCL_AVAILABLE : Bool := true

/-- A process-group handle: either an opaque constructed group (identified by
a creation id) or the `GroupMember.NON_GROUP_MEMBER` sentinel. -/
inductive PGHandle where
  | pg (id : Nat)
  | nonMember
deriving DecidableEq, Repr

/-- The module-level mutable state: `Group.WORLD`, the three registries, the
naming counter, plus the transport-reported rank/size of the default group
(`default_pg.rank()` / `default_pg.size()`). -/
structure DistState where
  world : Option Nat := none
  globalRank : Nat := 0
  worldSize : Nat := 0
  pg_map : List (PGHandle × (String × Option Nat)) := []
  pg_names : List (PGHandle × String) := []
  pg_group_ranks : List (PGHandle × List (Nat × Nat)) := []
  group_count : Nat := 0
  default_pg_init_method : Option String := none
  backendGlobal : String := backendUNDEFINED
  nextId : Nat := 0
deriving DecidableEq, Repr

/-- `_rank_not_in_group(group)`. -/
def rank_not_in_group (group : Option PGHandle) : Bool :=
  match group with
  | none => false
  | some g => decide (g = PGHandle.nonMember)

/-- `group is GroupMember.WORLD` for an explicit (non-`None`) handle. -/
def isWorldHandle (st : DistState) (g : PGHandle) : Bool :=
  match st.world with
  | some w => decide (g = PGHandle.pg w)
  | none => false

/-- The rank-map dict comprehension
`{global_rank: group_rank for group_rank, global_rank in enumerate(ranks)}`,
built left to right with last-write-wins dictionary update. -/
def rankMapAux : List Nat → Nat → List (Nat × Nat) → List (Nat × Nat)
  | [], _, d => d
  | g :: rest, i, d => rankMapAux rest (i + 1) (assocInsert d g i)

/-- Rank map of a rank list: global rank to group-local rank. -/
def rankMapOf (ranks : List Nat) : List (Nat × Nat) := rankMapAux ranks 0 []

/-- Python `sorted(ranks)` on a list of ranks. -/
def sortedRanks (ranks : List Nat) : List Nat :=
  List.insertionSort (fun a b => a ≤ b) ranks

/-- `_get_group_rank(group, rank)`. -/
def getGroupRank (st : DistState) (group : PGHandle) (rank : Nat) : Except DistErr Nat :=
  if isWorldHandle st group then .error .worldNoRankMap
  else match assocLookup st.pg_group_ranks group with
    | none => .error .groupNotExists
    | some d =>
      match assocLookup d rank with
      | none => .error .globalRankNotInGroup
      | some groupRank => .ok groupRank

/-- `_get_global_rank(group, group_rank)`: scan the rank map in insertion
order for the first entry whose group-local rank matches. -/
def getGlobalRank (st : DistState) (group : PGHandle) (groupRank : Nat) : Except DistErr Nat :=
  if isWorldHandle st group then .error .worldNoRankMap
  else match assocLookup st.pg_group_ranks group with
    | none => .error .keyError
    | some d =>
      match d.find? (fun p => p.2 = groupRank) with
      | some p => .ok p.1
      | none => .error .groupRankNotInGroup

/-- `_get_group_size(group)`. -/
def getGroupSize (st : DistState) (group : Option PGHandle) : Except DistErr Nat :=
  if group = st.world.map PGHandle.pg ∨ group = none then
    match st.world with
    | none => .error .notInitialized
    | some _ => .ok st.worldSize
  else match group with
    | none => .error .notInitialized
    | some g =>
      match assocLookup st.pg_group_ranks g with
      | none => .error .groupNotExists
      | some d => .ok d.length

/-- `get_rank(group)`. -/
def get_rank (st : DistState) (group : Option PGHandle) : Except DistErr Int :=
  if rank_not_in_group group then .ok (-1)
  else match st.world with
    | none => .error .notInitialized
    | some w =>
      if group = none ∨ group = some (PGHandle.pg w) then .ok (Int.ofNat st.globalRank)
      else match group with
        | some g => (getGroupRank st g st.globalRank).map Int.ofNat
        | none => .ok (Int.ofNat st.globalRank)

/-- `get_world_size(group)`. -/
def get_world_size (st : DistState) (group : Option PGHandle) : Except DistErr Int :=
  if rank_not_in_group group then .ok (-1)
  else (getGroupSize st group).map Int.ofNat

/-- `get_backend(group)`. -/
def get_backend (st : DistState) (group : Option PGHandle) : Except DistErr String :=
  match group with
  | none =>
    match st.world with
    | none => .error .notInitialized
    | some w =>
      match assocLookup st.pg_map (PGHandle.pg w) with
      | none => .error .assertionFailed
      | some (b, _) => .ok b
  | some g =>
    if rank_not_in_group (some g) then .error .invalidProcessGroup
    else match assocLookup st.pg_map g with
      | none => .error .assertionFailed
      | some (b, _) => .ok b

/-- `_new_process_group_helper(world_size, rank, group_ranks, backend, store,
group_name, timeout)`.  Returns the updated module state alongside the
outcome: the naming counter is advanced before any further check, exactly as
in the source.  `ProcessGroupMPI.create(group_ranks)` is external; its
documented contract (return no group when the caller is outside
`group_ranks`) is used for the MPI branch. -/
def new_process_group_helper (st : DistState) (_worldSize : Int) (_rank : Option Nat)
    (groupRanks : List Nat) (backend : String) (store : Option Nat)
    (groupName : String := "") : DistState × Except DistErr PGHandle :=
  let name := if groupName = "" then toString st.group_count else groupName
  let st := if groupName = "" then { st with group_count := st.group_count + 1 } else st
  if name ∈ st.pg_names.map Prod.snd then (st, .error .duplicateGroupName)
  else
    let isDefaultGroup := groupRanks.isEmpty
    match backendNew backend with
    | .error e => (st, .error e)
    | .ok backend =>
      if backend = backendMPI then
        if ¬ MPI_AVAILABLE then (st, .error .mpiNotAvailable)
        else if ¬ isDefaultGroup ∧ st.globalRank ∉ groupRanks then (st, .ok .nonMember)
        else
          let pg := PGHandle.pg st.nextId
          ({ st with nextId := st.nextId + 1,
                     pg_map := assocInsert st.pg_map pg (backendMPI, none),
                     pg_names := assocInsert st.pg_names pg name }, .ok pg)
      else
        if isDefaultGroup then
          let pg := PGHandle.pg st.nextId
          ({ st with nextId := st.nextId + 1,
                     pg_map := assocInsert st.pg_map pg (backend, store),
                     pg_names := assocInsert st.pg_names pg name }, .ok pg)
        else
          match st.world with
          | none => (st, .error .notInitialized)
          | some _ =>
            if st.globalRank ∉ groupRanks then (st, .ok .nonMember)
            else
              let pg := PGHandle.pg st.nextId
              ({ st with nextId := st.nextId + 1,
                         pg_map := assocInsert st.pg_map pg (backend, store),
                         pg_names := assocInsert st.pg_names pg name }, .ok pg)

/-- `destroy_process_group(group)`. -/
def destroy_process_group (st : DistState) (group : Option PGHandle) :
    DistState × Except DistErr Unit :=
  if group = some PGHandle.nonMember then (st, .ok ())
  else
    let pgOpt : Option PGHandle :=
      match group with
      | none => st.world.map PGHandle.pg
      | some g => some g
    match pgOpt with
    | none => (st, .error .assertionFailed)
    | some pg =>
      if assocLookup st.pg_map pg = none then (st, .error .invalidProcessGroup)
      else if group = none ∨ group = st.world.map PGHandle.pg then
        ({ st with world := none, default_pg_init_method := none,
                   pg_map := [], pg_names := [], pg_group_ranks := [],
                   group_count := 0 }, .ok ())
      else
        ({ st with pg_map := assocErase st.pg_map pg,
                   pg_names := assocErase st.pg_names pg,
                   pg_group_ranks := assocErase st.pg_group_ranks pg }, .ok ())

/-- The module state after the world group is destroyed: all three registries
cleared, the naming counter reset, the world pointer and init method gone. -/
def clearedState (st : DistState) : DistState :=
  { st with world := none, default_pg_init_method := none, pg_map := [],
            pg_names := [], pg_group_ranks := [], group_count := 0 }

/-- `init_process_group(backend, ...)` along the explicit-store path
(the rendezvous collaborator is out of scope).  For the MPI branch the
transport-assigned rank/size are read back from the state fields.  After the
helper returns the world group, `_update_default_pg` is applied, the identity
rank map of the world group is recorded, and `_backend` is set from the
world group's registry record. -/
def init_process_group (st : DistState) (backend : String) (worldSize rank : Int)
    (store : Nat) (groupName : String := "") : DistState × Except DistErr PGHandle :=
  if st.world ≠ none then (st, .error .alreadyInitialized)
  else if ¬ (worldSize > 0) then (st, .error .assertionFailed)
  else if ¬ (rank ≥ 0) then (st, .error .assertionFailed)
  else
    match backendNew backend with
    | .error e => (st, .error e)
    | .ok backend =>
      if backend = backendMPI then
        match new_process_group_helper st (-1) none [] backendMPI none groupName with
        | (st1, .error e) => (st1, .error e)
        | (st1, .ok .nonMember) => (st1, .error .assertionFailed)
        | (st1, .ok (.pg wid)) =>
          ({ st1 with world := some wid,
                      pg_group_ranks := assocInsert st1.pg_group_ranks (PGHandle.pg wid)
                        ((List.range st1.worldSize).map (fun i => (i, i))),
                      backendGlobal := ((assocLookup st1.pg_map (PGHandle.pg wid)).map
                        Prod.fst).getD backendUNDEFINED,
                      default_pg_init_method := none }, .ok (PGHandle.pg wid))
      else
        match new_process_group_helper
            { st with globalRank := rank.toNat, worldSize := worldSize.toNat }
            worldSize (some rank.toNat) [] backend (some store) groupName with
        | (st1, .error e) => (st1, .error e)
        | (st1, .ok .nonMember) => (st1, .error .assertionFailed)
        | (st1, .ok (.pg wid)) =>
          ({ st1 with world := some wid,
                      pg_group_ranks := assocInsert st1.pg_group_ranks (PGHandle.pg wid)
                        ((List.range st1.worldSize).map (fun i => (i, i))),
                      backendGlobal := ((assocLookup st1.pg_map (PGHandle.pg wid)).map
                        Prod.fst).getD backendUNDEFINED,
                      default_pg_init_method := none }, .ok (PGHandle.pg wid))

/-- `new_group(ranks, timeout, backend)`.  Note that the rank-map registry
assignment after the helper call is unconditional in the source: it runs for
the `NON_GROUP_MEMBER` sentinel as well.  The trailing store-based (or MPI)
barrier touches only the external store, not the registries. -/
def new_group (st : DistState) (ranks : Option (List Nat)) (backend : Option String) :
    DistState × Except DistErr PGHandle :=
  match st.world with
  | none => (st, .error .notInitialized)
  | some w =>
    match assocLookup st.pg_map (PGHandle.pg w) with
    | none => (st, .error .keyError)
    | some (defaultBackend, defaultStore) =>
      let globalRank := st.globalRank
      let globalWorldSize := st.worldSize
      let backend :=
        match backend with
        | none => defaultBackend
        | some b => if b = "" then defaultBackend else b
      let checked : Except DistErr (List Nat × Int × Option Nat) :=
        match ranks with
        | some ranks0 =>
          let ranks1 := sortedRanks ranks0
          if ranks1.length > globalWorldSize then .error .groupTooLarge
          else if ¬ ranks1.all (fun r => r < globalWorldSize) then .error .rankOutOfRange
          else if globalRank ∈ ranks1 then
            .ok (ranks1, Int.ofNat ranks1.length, some (ranks1.indexOf globalRank))
          else .ok (ranks1, Int.ofNat ranks1.length, none)
        | none =>
          .ok (List.range globalWorldSize, Int.ofNat globalWorldSize, some globalRank)
      match checked with
      | .error e => (st, .error e)
      | .ok (ranks1, groupWorldSize, groupRank) =>
        match backendNew backend with
        | .error e => (st, .error e)
        | .ok backend2 =>
          let (st1, res) :=
            new_process_group_helper st groupWorldSize groupRank ranks1 backend2 defaultStore ""
          match res with
          | .error e => (st1, .error e)
          | .ok pg =>
            ({ st1 with pg_group_ranks := assocInsert st1.pg_group_ranks pg (rankMapOf ranks1) },
             .ok pg)

/-- The opaque transport: one abstract function per capability of the
`ProcessGroup` contract.  Each in-place collective is modelled as a function
from the caller-visible buffers (and options) to their contents after the
operation completes; point-to-point calls also produce a work-handle id. -/
structure Transport where
  allreduce : Tensor → ReduceOp → Tensor
  allreduceCoalesced : List Tensor → ReduceOp → List Tensor
  broadcastFn : Tensor → Nat → Tensor
  allgather : List Tensor → Tensor → List Tensor
  allgatherCoalesced : List (List Tensor) → List Tensor → List (List Tensor)
  gatherFn : List Tensor → Tensor → Nat → List Tensor
  scatterFn : Tensor → List Tensor → Nat → Tensor
  reduceScatter : Tensor → List Tensor → ReduceOp → Tensor
  alltoallBase : Tensor → Tensor → List Nat → List Nat → Tensor
  alltoallFn : List Tensor → List Tensor → List Tensor
  sendWork : Tensor → Nat → Nat → Nat
  recvWork : Tensor → Nat → Nat → Nat
  recvTensor : Tensor → Nat → Nat → Tensor
  recvAny : Tensor → Nat → Tensor × Nat

/-- `isend(tensor, dst, group, tag)`: returns a request object, or `None` when
the caller is not in the group. -/
def isend (st : DistState) (tr : Transport) (tensor : Tensor) (dst : Nat)
    (group : Option PGHandle) (tag : Nat) : Except DistErr (Option Nat) :=
  if rank_not_in_group group then .ok none
  else match group with
    | none =>
      match st.world with
      | none => .error .notInitialized
      | some _ => .ok (some (tr.sendWork tensor dst tag))
    | some g =>
      if isWorldHandle st g then .ok (some (tr.sendWork tensor dst tag))
      else match getGroupRank st g dst with
        | .error e => .error e
        | .ok groupDstRank => .ok (some (tr.sendWork tensor groupDstRank tag))

/-- `irecv(tensor, src, group, tag)`. -/
def irecv (st : DistState) (tr : Transport) (tensor : Tensor) (src : Option Nat)
    (group : Option PGHandle) (tag : Nat) : Except DistErr (Option Nat) :=
  if rank_not_in_group group then .ok none
  else
    let pgRes : Except DistErr PGHandle :=
      match group with
      | none =>
        match st.world with
        | none => .error .notInitialized
        | some w => .ok (PGHandle.pg w)
      | some g => if isWorldHandle st g then
          match st.world with
          | none => .error .notInitialized
          | some w => .ok (PGHandle.pg w)
        else .ok g
    match pgRes with
    | .error e => .error e
    | .ok pg =>
      match src with
      | none => .ok (some (tr.recvWork tensor 0 tag))
      | some s =>
        if isWorldHandle st pg then .ok (some (tr.recvWork tensor s tag))
        else match getGroupRank st pg s with
          | .error e => .error e
          | .ok groupSrcRank => .ok (some (tr.recvWork tensor groupSrcRank tag))

/-- `send(tensor, dst, group, tag)`: synchronous, returns `None` (the local
buffer is only read). -/
def send (st : DistState) (tr : Transport) (tensor : Tensor) (dst : Nat)
    (group : Option PGHandle) (tag : Nat) : Except DistErr Unit :=
  if rank_not_in_group group then .ok ()
  else match group with
    | none =>
      match st.world with
      | none => .error .notInitialized
      | some _ =>
        let _ := tr.sendWork tensor dst tag
        .ok ()
    | some g =>
      if isWorldHandle st g then
        let _ := tr.sendWork tensor dst tag
        .ok ()
      else match getGroupRank st g dst with
        | .error e => .error e
        | .ok groupDstRank =>
          let _ := tr.sendWork tensor groupDstRank tag
          .ok ()

/-- `recv(tensor, src, group, tag)`: fills the buffer and returns the sender
rank, or `-1` when the caller is not in the group. -/
def recv (st : DistState) (tr : Transport) (tensor : Tensor) (src : Option Nat)
    (group : Option PGHandle) (tag : Nat) : Except DistErr (Tensor × Int) :=
  if rank_not_in_group group then .ok (tensor, -1)
  else
    let pgRes : Except DistErr PGHandle :=
      match group with
      | none =>
        match st.world with
        | none => .error .notInitialized
        | some w => .ok (PGHandle.pg w)
      | some g => .ok g
    match pgRes with
    | .error e => .error e
    | .ok pg =>
      match src with
      | none =>
        let (t2, srcRank) := tr.recvAny tensor tag
        if group = none ∨ group = st.world.map PGHandle.pg then .ok (t2, Int.ofNat srcRank)
        else match getGlobalRank st pg srcRank with
          | .error e => .error e
          | .ok r => .ok (t2, Int.ofNat r)
      | some s =>
        if group = none ∨ group = st.world.map PGHandle.pg then
          .ok (tr.recvTensor tensor s tag, Int.ofNat s)
        else match getGroupRank st pg s with
          | .error e => .error e
          | .ok groupSrcRank => .ok (tr.recvTensor tensor groupSrcRank tag, Int.ofNat s)

/-- `broadcast(tensor, src, group, async_op)`. -/
def broadcast (st : DistState) (tr : Transport) (tensor : Tensor) (src : Nat)
    (group : Option PGHandle) (asyncOp : Bool) : Except DistErr (Tensor × Option Nat) :=
  if rank_not_in_group group then .ok (tensor, none)
  else match group with
    | none =>
      match st.world with
      | none => .error .notInitialized
      | some _ => .ok (tr.broadcastFn tensor src, if asyncOp then some 0 else none)
    | some g =>
      if isWorldHandle st g then
        match st.world with
        | none => .error .notInitialized
        | some _ => .ok (tr.broadcastFn tensor src, if asyncOp then some 0 else none)
      else match getGroupRank st g src with
        | .error e => .error e
        | .ok groupSrcRank =>
          .ok (tr.broadcastFn tensor groupSrcRank, if asyncOp then some 0 else none)

/-- `all_reduce(tensor, op, group, async_op)`: rejects unsupported reductions
on complex tensors before dispatch. -/
def all_reduce (st : DistState) (tr : Transport) (tensor : Tensor) (op : ReduceOp)
    (group : Option PGHandle) (asyncOp : Bool) : Except DistErr (Tensor × Option Nat) :=
  if rank_not_in_group group then .ok (tensor, none)
  else if tensor.isComplex && !(supports_complex op) then .error (.complexUnsupported op)
  else
    let t := if tensor.isComplex then view_as_real tensor else tensor
    match group with
    | none =>
      match st.world with
      | none => .error .notInitialized
      | some _ => .ok (tr.allreduce t op, if asyncOp then some 0 else none)
    | some _ => .ok (tr.allreduce t op, if asyncOp then some 0 else none)

/-- `all_reduce_coalesced(tensors, op, group, async_op)`. -/
def all_reduce_coalesced (st : DistState) (tr : Transport) (tensors : List Tensor)
    (op : ReduceOp) (group : Option PGHandle) (asyncOp : Bool) :
    Except DistErr (List Tensor × Option Nat) :=
  if rank_not_in_group group then .ok (tensors, none)
  else if (tensors.any (fun t => t.isComplex)) && !(supports_complex op) then
    .error (.complexUnsupported op)
  else
    let ts := tensors.map (fun t => if t.isComplex then view_as_real t else t)
    match group with
    | none =>
      match st.world with
      | none => .error .notInitialized
      | some _ => .ok (tr.allreduceCoalesced ts op, if asyncOp then some 0 else none)
    | some _ => .ok (tr.allreduceCoalesced ts op, if asyncOp then some 0 else none)

/-- `reduce(tensor, dst, op, group, async_op)`: rejects `async_op` up front,
then performs a full all-reduce on a clone of the buffer and copies the
result back only on the destination rank.  Note the source performs no
complex-tensor check here. -/
def reduce (st : DistState) (tr : Transport) (tensor : Tensor) (dst : Nat)
    (op : ReduceOp) (group : Option PGHandle) (asyncOp : Bool) : Except DistErr Tensor :=
  if asyncOp then .error .unsupportedAsync
  else if rank_not_in_group group then .ok tensor
  else
    if group = none ∨ group = st.world.map PGHandle.pg then
      match st.world with
      | none => .error .notInitialized
      | some _ =>
        let groupDstRank := dst
        match get_rank st none with
        | .error e => .error e
        | .ok currentRank =>
          let tensorTmp := tensor
          let reduced := tr.allreduce tensorTmp op
          .ok (if currentRank = Int.ofNat groupDstRank then reduced else tensor)
    else match group with
      | none => .error .notInitialized
      | some g =>
        match getGroupRank st g dst with
        | .error e => .error e
        | .ok groupDstRank =>
          match get_rank st (some g) with
          | .error e => .error e
          | .ok currentRank =>
            let tensorTmp := tensor
            let reduced := tr.allreduce tensorTmp op
            .ok (if currentRank = Int.ofNat groupDstRank then reduced else tensor)

/-- `all_gather(tensor_list, tensor, group, async_op)`. -/
def all_gather (st : DistState) (tr : Transport) (tensorList : List Tensor)
    (tensor : Tensor) (group : Option PGHandle) (asyncOp : Bool) :
    Except DistErr (List Tensor × Option Nat) :=
  if rank_not_in_group group then .ok (tensorList, none)
  else
    let outs := tensorList.map (fun t => if t.isComplex then view_as_real t else t)
    let t := if tensor.isComplex then view_as_real tensor else tensor
    match group with
    | none =>
      match st.world with
      | none => .error .notInitialized
      | some _ => .ok (tr.allgather outs t, if asyncOp then some 0 else none)
    | some _ => .ok (tr.allgather outs t, if asyncOp then some 0 else none)

/-- `all_gather_coalesced(output_tensor_lists, input_tensor_list, group,
async_op)`. -/
def all_gather_coalesced (st : DistState) (tr : Transport)
    (outputTensorLists : List (List Tensor)) (inputTensorList : List Tensor)
    (group : Option PGHandle) (asyncOp : Bool) :
    Except DistErr (List (List Tensor) × Option Nat) :=
  if rank_not_in_group group then .ok (outputTensorLists, none)
  else
    let outs := outputTensorLists.map
      (fun l => l.map (fun t => if t.isComplex then view_as_real t else t))
    let ins := inputTensorList.map (fun t => if t.isComplex then view_as_real t else t)
    match group with
    | none =>
      match st.world with
      | none => .error .notInitialized
      | some _ => .ok (tr.allgatherCoalesced outs ins, if asyncOp then some 0 else none)
    | some _ => .ok (tr.allgatherCoalesced outs ins, if asyncOp then some 0 else none)

/-- `gather(tensor, gather_list, dst, group, async_op)` (a `None` gather list
is replaced by `[]` before the membership test, as in the source). -/
def gather (st : DistState) (tr : Transport) (tensor : Tensor)
    (gatherList : List Tensor) (dst : Nat) (group : Option PGHandle)
    (asyncOp : Bool) : Except DistErr (List Tensor × Option Nat) :=
  if rank_not_in_group group then .ok (gatherList, none)
  else
    match get_rank st none with
    | .error e => .error e
    | .ok myRank =>
      if Int.ofNat dst = myRank ∧ gatherList.isEmpty then .error .gatherListMissingOnDst
      else if Int.ofNat dst ≠ myRank ∧ ¬ gatherList.isEmpty then .error .gatherListOnNonDst
      else
        let outs := if Int.ofNat dst = myRank then gatherList else []
        match group with
        | none =>
          .ok (tr.gatherFn outs tensor dst, if asyncOp then some 0 else none)
        | some g =>
          if isWorldHandle st g then
            .ok (tr.gatherFn outs tensor dst, if asyncOp then some 0 else none)
          else match getGroupRank st g dst with
            | .error e => .error e
            | .ok groupDstRank =>
              .ok (tr.gatherFn outs tensor groupDstRank, if asyncOp then some 0 else none)

/-- `scatter(tensor, scatter_list, src, group, async_op)`. -/
def scatter (st : DistState) (tr : Transport) (tensor : Tensor)
    (scatterList : List Tensor) (src : Nat) (group : Option PGHandle)
    (asyncOp : Bool) : Except DistErr (Tensor × Option Nat) :=
  if rank_not_in_group group then .ok (tensor, none)
  else
    match get_rank st none with
    | .error e => .error e
    | .ok myRank =>
      if Int.ofNat src = myRank ∧ scatterList.isEmpty then .error .scatterListMissingOnSrc
      else if Int.ofNat src ≠ myRank ∧ ¬ scatterList.isEmpty then .error .scatterListOnNonSrc
      else
        let ins := if Int.ofNat src = myRank then scatterList else []
        match group with
        | none =>
          .ok (tr.scatterFn tensor ins src, if asyncOp then some 0 else none)
        | some g =>
          if isWorldHandle st g then
            .ok (tr.scatterFn tensor ins src, if asyncOp then some 0 else none)
          else match getGroupRank st g src with
            | .error e => .error e
            | .ok groupSrcRank =>
              .ok (tr.scatterFn tensor ins groupSrcRank, if asyncOp then some 0 else none)

/-- `reduce_scatter(output, input_list, op, group, async_op)`.  Note the
source performs no complex-tensor check here. -/
def reduce_scatter (st : DistState) (tr : Transport) (output : Tensor)
    (inputList : List Tensor) (op : ReduceOp) (group : Option PGHandle)
    (asyncOp : Bool) : Except DistErr (Tensor × Option Nat) :=
  if rank_not_in_group group then .ok (output, none)
  else match group with
    | none =>
      match st.world with
      | none => .error .notInitialized
      | some _ => .ok (tr.reduceScatter output inputList op, if asyncOp then some 0 else none)
    | some _ => .ok (tr.reduceScatter output inputList op, if asyncOp then some 0 else none)

/-- `all_to_all_single(output, input, output_split_sizes, input_split_sizes,
group, async_op)` (`None` split lists default to `[]`). -/
def all_to_all_single (st : DistState) (tr : Transport) (outputTensor inputTensor : Tensor)
    (outputSplitSizes inputSplitSizes : List Nat) (group : Option PGHandle)
    (asyncOp : Bool) : Except DistErr (Tensor × Option Nat) :=
  if rank_not_in_group group then .ok (outputTensor, none)
  else match group with
    | none =>
      match st.world with
      | none => .error .notInitialized
      | some _ =>
        .ok (tr.alltoallBase outputTensor inputTensor outputSplitSizes inputSplitSizes,
             if asyncOp then some 0 else none)
    | some _ =>
      .ok (tr.alltoallBase outputTensor inputTensor outputSplitSizes inputSplitSizes,
           if asyncOp then some 0 else none)

/-- `all_to_all(output_tensor_list, input_tensor_list, group, async_op)`. -/
def all_to_all (st : DistState) (tr : Transport) (outputTensorList inputTensorList : List Tensor)
    (group : Option PGHandle) (asyncOp : Bool) :
    Except DistErr (List Tensor × Option Nat) :=
  if rank_not_in_group group then .ok (outputTensorList, none)
  else match group with
    | none =>
      match st.world with
      | none => .error .notInitialized
      | some _ => .ok (tr.alltoallFn outputTensorList inputTensorList,
                       if asyncOp then some 0 else none)
    | some _ => .ok (tr.alltoallFn outputTensorList inputTensorList,
                     if asyncOp then some 0 else none)

/-- `barrier(group, async_op, device_ids)`. -/
def barrier (st : DistState) (_tr : Transport) (group : Option PGHandle)
    (asyncOp : Bool) (deviceIds : Option (List Nat)) : Except DistErr (Option Nat) :=
  if rank_not_in_group group then .ok none
  else
    let devCheck : Except DistErr Unit :=
      match deviceIds with
      | none => .ok ()
      | some _ =>
        match get_backend st group with
        | .error e => .error e
        | .ok b => if b ≠ backendNCCL then .error .deviceIdsWrongBackend else .ok ()
    match devCheck with
    | .error e => .error e
    | .ok _ =>
      match group with
      | none =>
        match st.world with
        | none => .error .notInitialized
        | some _ => .ok (if asyncOp then some 0 else none)
      | some _ => .ok (if asyncOp then some 0 else none)

/-- The operations of the minimal store contract.  The source only ever calls
`add`; `get` is present in the contract so that "never a plain read" is a
statement about traces, not about the type. -/
inductive StoreOp where
  | add (key : String) (delta : Nat)
  | get (key : String)
deriving DecidableEq, Repr

/-- The fixed prefix of store-based-barrier keys. -/
def storeBasedBarrierKeyBase : String := "store_based_barrier_key"

/-- The key `"{prefix}:{_group_count}"` used by one store-based-barrier call. -/
def barrierStoreKey (groupCount : Nat) : String :=
  storeBasedBarrierKeyBase ++ ":" ++ toString groupCount

/-- One timeout-error value of the store-based barrier, carrying the fields
the raised message reports. -/
structure BarrierErr where
  rank : Nat
  key : String
  worldSize : Nat
  workerCount : Nat
  timeout : Nat
deriving DecidableEq, Repr

/-- The poll loop of `_store_based_barrier`.  Time is modelled in sleep ticks
of 10ms: `v i` is the counter value returned by the `i`-th `add(key, 0)` call
(other ranks add to the key concurrently), and `timeoutTicks` is the caller
timeout expressed in ticks.  On entry the value `v i` has just been read; the
loop body sleeps, re-reads, and checks the elapsed time before re-testing the
loop condition, exactly as in the source.  The returned list records the store
operations of the re-reads. -/
def barrierLoop (rank : Nat) (key : String) (worldSize : Nat) (v : Nat → Nat)
    (timeoutTicks : Nat) (i : Nat) : List StoreOp × Except BarrierErr Nat :=
  if v i = worldSize then ([], .ok i)
  else if i + 1 > timeoutTicks then
    ([StoreOp.add key 0], .error ⟨rank, key, worldSize, v (i + 1), timeoutTicks⟩)
  else
    let rest := barrierLoop rank key worldSize v timeoutTicks (i + 1)
    (StoreOp.add key 0 :: rest.1, rest.2)
termination_by timeoutTicks + 1 - i
decreasing_by omega

/-- `_store_based_barrier(rank, store, timeout)`: add 1 to the derived key,
read the counter back with `add(key, 0)`, then poll until it equals the
default group's world size or the timeout elapses.  Returns the trace of
store operations together with the outcome (the index of the final read on
success). -/
def store_based_barrier (rank groupCount worldSize : Nat) (v : Nat → Nat)
    (timeoutTicks : Nat) : List StoreOp × Except BarrierErr Nat :=
  let key := barrierStoreKey groupCount
  let loop := barrierLoop rank key worldSize v timeoutTicks 0
  (StoreOp.add key 1 :: StoreOp.add key 0 :: loop.1, loop.2)

/-- A world-ready two-rank state as seen by global rank 0: the default group
is `pg 0` with backend gloo, named `"0"`, with the identity rank map. -/
def stW : DistState :=
  { world := some 0, globalRank := 0, worldSize := 2,
    pg_map := [(PGHandle.pg 0, (backendGLOO, some 0))],
    pg_names := [(PGHandle.pg 0, "0")],
    pg_group_ranks := [(PGHandle.pg 0, [(0, 0), (1, 1)])],
    group_count := 1, nextId := 1 }

/-- `stW` extended with a subgroup `pg 1` of both ranks, named `"1"`. -/
def stSub : DistState :=
  { world := some 0, globalRank := 0, worldSize := 2,
    pg_map := [(PGHandle.pg 0, (backendGLOO, some 0)),
               (PGHandle.pg 1, (backendGLOO, some 0))],
    pg_names := [(PGHandle.pg 0, "0"), (PGHandle.pg 1, "1")],
    pg_group_ranks := [(PGHandle.pg 0, [(0, 0), (1, 1)]),
                       (PGHandle.pg 1, [(0, 0), (1, 1)])],
    group_count := 2, nextId := 2 }

/-- A concrete transport whose collectives leave the buffers as dispatched. -/
def trId : Transport :=
  { allreduce := fun t _ => t, allreduceCoalesced := fun ts _ => ts,
    broadcastFn := fun t _ => t, allgather := fun ts _ => ts,
    allgatherCoalesced := fun ls _ => ls, gatherFn := fun ts _ _ => ts,
    scatterFn := fun t _ _ => t, reduceScatter := fun t _ _ => t,
    alltoallBase := fun o _ _ _ => o, alltoallFn := fun o _ => o,
    sendWork := fun _ _ _ => 0, recvWork := fun _ _ _ => 0,
    recvTensor := fun t _ _ => t, recvAny := fun t _ => (t, 0) }

/-- A concrete real tensor. -/
def tensorA : Tensor := { isComplex := false, data := [1, 2] }

/-- A store-counter schedule for the barrier witness: the counter reads 1 on
the first poll and 3 afterwards. -/
def vEx (i : Nat) : Nat := if i = 0 then 1 else 3

theorem assocLookup_insert {κ α : Type} [DecidableEq κ] (d : List (κ × α)) (k k' : κ) (v : α) :
    assocLookup (assocInsert d k v) k' = if k = k' then some v else assocLookup d k' := by
  induction d with
  | nil => simp [assocInsert, assocLookup]
  | cons p rest ih =>
    obtain ⟨a, b⟩ := p
    by_cases hak : a = k
    · subst hak
      by_cases hkk : a = k'
      · simp [assocInsert, assocLookup, hkk]
      · simp [assocInsert, assocLookup, hkk]
    · by_cases hak' : a = k'
      · subst hak'
        simp [assocInsert, assocLookup, hak, (Ne.symm hak : ¬ k = a)]
      · simp [assocInsert, assocLookup, hak, hak', ih]

theorem assocLookup_insert_self {κ α : Type} [DecidableEq κ] (d : List (κ × α)) (k : κ) (v : α) :
    assocLookup (assocInsert d k v) k = some v := by
  simp [assocLookup_insert]

/-- The rank of the default group, once initialized. -/
theorem get_rank_default (st : DistState) (w : Nat) (hw : st.world = some w) :
    get_rank st none = .ok (Int.ofNat st.globalRank) := by
  unfold get_rank rank_not_in_group
  simp [hw]

/-- `reduce` on the default group: all-reduce into a scratch clone, copy back
only on the destination rank. -/
theorem reduce_world_eq (st : DistState) (tr : Transport) (t : Tensor) (dst : Nat)
    (op : ReduceOp) (w : Nat) (hw : st.world = some w) :
    reduce st tr t dst op none false =
      .ok (if st.globalRank = dst then tr.allreduce t op else t) := by
  unfold reduce
  simp [rank_not_in_group, hw, get_rank_default st w hw, Int.ofNat.injEq]

/-- `reduce_scatter` on the default group dispatches directly. -/
theorem reduce_scatter_world_eq (st : DistState) (tr : Transport) (out : Tensor)
    (ts : List Tensor) (op : ReduceOp) (async : Bool) (w : Nat) (hw : st.world = some w) :
    reduce_scatter st tr out ts op none async =
      .ok (tr.reduceScatter out ts op, if async then some 0 else none) := by
  unfold reduce_scatter
  simp [rank_not_in_group, hw]

/-- C1: every operation invoked with the `NON_GROUP_MEMBER` sentinel as the
group argument returns immediately with no error and no change to any buffer:
`get_rank` and `get_world_size` return `-1`, and every collective and
point-to-point call returns nothing.  (The operations read the registries and
never write them; `reduce` is called with the valid `async_op=False`, since
`async_op=True` is rejected for `reduce` on every group per its own
contract.) -/
theorem c1_non_group_member_noop (st : DistState) (tr : Transport) (t u : Tensor)
    (ts us : List Tensor) (lls : List (List Tensor)) (n tag : Nat) (src : Option Nat)
    (op : ReduceOp) (async : Bool) (devs : Option (List Nat)) (oss iss : List Nat) :
    get_rank st (some PGHandle.nonMember) = .ok (-1) ∧
    get_world_size st (some PGHandle.nonMember) = .ok (-1) ∧
    isend st tr t n (some PGHandle.nonMember) tag = .ok none ∧
    irecv st tr t src (some PGHandle.nonMember) tag = .ok none ∧
    send st tr t n (some PGHandle.nonMember) tag = .ok () ∧
    recv st tr t src (some PGHandle.nonMember) tag = .ok (t, -1) ∧
    broadcast st tr t n (some PGHandle.nonMember) async = .ok (t, none) ∧
    all_reduce st tr t op (some PGHandle.nonMember) async = .ok (t, none) ∧
    all_reduce_coalesced st tr ts op (some PGHandle.nonMember) async = .ok (ts, none) ∧
    reduce st tr t n op (some PGHandle.nonMember) false = .ok t ∧
    all_gather st tr ts t (some PGHandle.nonMember) async = .ok (ts, none) ∧
    all_gather_coalesced st tr lls ts (some PGHandle.nonMember) async = .ok (lls, none) ∧
    gather st tr t ts n (some PGHandle.nonMember) async = .ok (ts, none) ∧
    scatter st tr t ts n (some PGHandle.nonMember) async = .ok (t, none) ∧
    reduce_scatter st tr t ts op (some PGHandle.nonMember) async = .ok (t, none) ∧
    all_to_all_single st tr t u oss iss (some PGHandle.nonMember) async = .ok (t, none) ∧
    all_to_all st tr ts us (some PGHandle.nonMember) async = .ok (ts, none) ∧
    barrier st tr (some PGHandle.nonMember) async devs = .ok none :=
  ⟨rfl, rfl, rfl, rfl, rfl, rfl, rfl, rfl, rfl, rfl, rfl, rfl, rfl, rfl, rfl, rfl, rfl, rfl⟩

/-- C5: group creation with an explicit name that already names a live group
fails with the duplicate-group-name error on every rank — the check precedes
the membership test, so non-member ranks fail identically. -/
theorem c5_duplicate_explicit_name (st : DistState) (ws : Int) (rank : Option Nat)
    (groupRanks : List Nat) (backend : String) (store : Option Nat) (name : String)
    (hname : name ≠ "") (hdup : name ∈ st.pg_names.map Prod.snd) :
    (new_process_group_helper st ws rank groupRanks backend store name).2 =
      .error .duplicateGroupName := by
  unfold new_process_group_helper
  simp [hname, hdup]

/-- Witness for C5: in `stSub`, re-creating a group explicitly named `"1"`
fails with the duplicate-group-name error, also for the non-member rank list
`[1]` (the caller, rank 0, is not in it). -/
theorem c5_duplicate_explicit_name_witness :
    (new_process_group_helper stSub 1 none [1] backendGLOO (some 0) "1").2 =
      .error .duplicateGroupName :=
  c5_duplicate_explicit_name stSub 1 none [1] backendGLOO (some 0) "1"
    (by decide) (by decide)

/-- C7 counterexample: `reduce` and `reduce_scatter` on complex buffers with
reduction kind MAX do not fail with the unsupported-reduce-on-complex error:
they dispatch to the transport and return normally. -/
theorem c7_counterexample :
    reduce stW trId { isComplex := true, data := [1, 2] } 0 ReduceOp.MAX none false =
      .ok { isComplex := true, data := [1, 2] } ∧
    reduce_scatter stW trId { isComplex := true, data := [1] }
        [{ isComplex := true, data := [2] }] ReduceOp.MAX none false =
      .ok ({ isComplex := true, data := [1] }, none) := by
  constructor
  · rfl
  · rfl

/-- C7 (amended): of the reduction-bearing collectives, `all_reduce` and
`all_reduce_coalesced` fail up front with the unsupported-reduce-on-complex
error for a deny-listed reduction kind on complex buffers, before any dispatch
to the group's transport; `reduce` and `reduce_scatter` perform no such check
and dispatch to the transport regardless. -/
theorem c7_complex_check_exactly_allreduce (st : DistState) (tr : Transport)
    (t out : Tensor) (ts : List Tensor) (op : ReduceOp) (g : Option PGHandle)
    (async : Bool) (dst : Nat) (w : Nat)
    (hg : rank_not_in_group g = false)
    (ht : t.isComplex = true) (hts : ts.any (fun x => x.isComplex) = true)
    (hop : supports_complex op = false) (hw : st.world = some w) :
    all_reduce st tr t op g async = .error (.complexUnsupported op) ∧
    all_reduce_coalesced st tr ts op g async = .error (.complexUnsupported op) ∧
    reduce st tr t dst op none false =
      .ok (if st.globalRank = dst then tr.allreduce t op else t) ∧
    reduce_scatter st tr out ts op none async =
      .ok (tr.reduceScatter out ts op, if async then some 0 else none) := by
  refine ⟨?_, ?_, reduce_world_eq st tr t dst op w hw,
    reduce_scatter_world_eq st tr out ts op async w hw⟩
  · unfold all_reduce
    simp [hg, ht, hop]
  · unfold all_reduce_coalesced
    simp [hg, hts, hop]

/-- Witness for C7 (amended), at `stW` with `op = MAX` on complex buffers. -/
theorem c7_complex_check_exactly_allreduce_witness :
    all_reduce stW trId { isComplex := true, data := [1] } ReduceOp.MAX none false =
      .error (.complexUnsupported ReduceOp.MAX) ∧
    reduce stW trId { isComplex := true, data := [1] } 1 ReduceOp.MAX none false =
      .ok { isComplex := true, data := [1] } := by
  have h := c7_complex_check_exactly_allreduce stW trId
    { isComplex := true, data := [1] } { isComplex := true, data := [1] }
    [{ isComplex := true, data := [1] }] ReduceOp.MAX none false 1 0
    rfl rfl (by decide) (by decide) rfl
  exact ⟨h.1, by simpa using h.2.2.1⟩

/-- C8: `reduce` always performs a full all-reduce (into a scratch clone of
the caller's buffer) and copies the result into the caller's buffer only on
the destination rank, leaving it unchanged on every other rank; invoking
`reduce` with the async flag set fails with the unsupported-async error. -/
theorem c8_reduce_allreduce_then_copy (st : DistState) (tr : Transport) (t : Tensor)
    (dst : Nat) (op : ReduceOp) (group : Option PGHandle) (w : Nat) (sub : PGHandle)
    (c d : Nat) (hw : st.world = some w)
    (hc : get_rank st (some sub) = .ok (Int.ofNat c))
    (hd : getGroupRank st sub dst = .ok d)
    (hsub : ¬ (some sub = st.world.map PGHandle.pg)) (hnm : sub ≠ PGHandle.nonMember) :
    reduce st tr t dst op none false =
      .ok (if st.globalRank = dst then tr.allreduce t op else t) ∧
    reduce st tr t dst op (some sub) false =
      .ok (if c = d then tr.allreduce t op else t) ∧
    reduce st tr t dst op group true = .error .unsupportedAsync := by
  refine ⟨reduce_world_eq st tr t dst op w hw, ?_, rfl⟩
  unfold reduce
  simp [rank_not_in_group, hnm, hsub, hd, hc, Int.ofNat.injEq]

/-- Witness for C8: in `stSub` with subgroup `pg 1` and destination rank 1,
the calling rank 0 keeps its buffer unchanged, and the async invocation
fails. -/
theorem c8_reduce_allreduce_then_copy_witness :
    reduce stSub trId tensorA 1 ReduceOp.SUM none false = .ok tensorA ∧
    reduce stSub trId tensorA 1 ReduceOp.SUM (some (PGHandle.pg 1)) false = .ok tensorA ∧
    reduce stSub trId tensorA 1 ReduceOp.SUM none true = .error .unsupportedAsync := by
  have h := c8_reduce_allreduce_then_copy stSub trId tensorA 1 ReduceOp.SUM none 0
    (PGHandle.pg 1) 0 1 rfl rfl rfl (by decide) (by decide)
  exact ⟨by simpa using h.1, by simpa using h.2.1, h.2.2⟩

/-- C9 counterexample: `hccl` is a valid backend name, yet resolving its
uppercase form returns the caller's original string, not the canonical
lowercase identifier, so `resolve("HCCL") ≠ resolve("hccl")`. -/
theorem c9_counterexample :
    backendNew "HCCL" = .ok "HCCL" ∧ backendNew "hccl" = .ok "hccl" ∧
      ("HCCL" : String) ≠ "hccl" := by
  refine ⟨rfl, rfl, by decide⟩

/-- C9 (amended): resolution is case-insensitive with the canonical lowercase
result for `gloo`, `nccl` and `mpi`; resolving `tcp` in any case fails with
the deprecated-backend error; a name matching no known backend attribute (and
the reserved `undefined`) fails with the invalid-backend error; but for any
other known backend, such as `hccl`, resolution returns the caller's original
string unchanged, so uppercase and lowercase forms resolve differently. -/
theorem c9_backend_resolution (s : String) :
    (strUpper s = "GLOO" → backendNew s = .ok "gloo") ∧
    (strUpper s = "NCCL" → backendNew s = .ok "nccl") ∧
    (strUpper s = "MPI" → backendNew s = .ok "mpi") ∧
    (strUpper s = "TCP" → backendNew s = .error .deprecatedTCP) ∧
    (strUpper s = "HCCL" → backendNew s = .ok s) ∧
    (strUpper s = "UNDEFINED" → backendNew s = .error (.invalidBackend s)) ∧
    (backendAttr (strUpper s) = none → backendNew s = .error (.invalidBackend s)) := by
  refine ⟨fun h => ?_, fun h => ?_, fun h => ?_, fun h => ?_, fun h => ?_,
    fun h => ?_, fun h => ?_⟩
  case refine_7 =>
    simp [backendNew, h, backendGLOO, backendNCCL, backendMPI,
      backendTCP, backendUNDEFINED]
  all_goals
    simp [backendNew, backendAttr, h, backendGLOO, backendNCCL, backendMPI,
      backendTCP, backendHCCL, backendUNDEFINED]

/-- Witness for C9 (amended): concrete resolutions for each clause. -/
theorem c9_backend_resolution_witness :
    backendNew "Gloo" = .ok "gloo" ∧ backendNew "TCP" = .error .deprecatedTCP ∧
    backendNew "Hccl" = .ok "Hccl" ∧ backendNew "ring" = .error (.invalidBackend "ring") := by
  refine ⟨(c9_backend_resolution "Gloo").1 (by decide),
    (c9_backend_resolution "TCP").2.2.2.1 (by decide),
    (c9_backend_resolution "Hccl").2.2.2.2.1 (by decide),
    (c9_backend_resolution "ring").2.2.2.2.2.2 (by decide)⟩

/-- Shape of the barrier poll loop: every recorded operation is an
`add(key, 0)` read; success at index `j` means the `j`-th read saw
`world_size`, with one recorded re-read per loop iteration; the timeout error
carries the caller's rank, the key, the world size and the last observed
counter, and fires only once the elapsed ticks exceed the timeout. -/
theorem barrierLoop_eq_done (rank : Nat) (key : String) (ws : Nat) (v : Nat → Nat)
    (T : Nat) (i : Nat) (h : v i = ws) :
    barrierLoop rank key ws v T i = ([], .ok i) := by
  rw [barrierLoop]
  simp [h]

theorem barrierLoop_eq_timeout (rank : Nat) (key : String) (ws : Nat) (v : Nat → Nat)
    (T : Nat) (i : Nat) (h1 : ¬ v i = ws) (h2 : i + 1 > T) :
    barrierLoop rank key ws v T i =
      ([StoreOp.add key 0], .error ⟨rank, key, ws, v (i + 1), T⟩) := by
  rw [barrierLoop]
  simp [h1, h2]

theorem barrierLoop_eq_step (rank : Nat) (key : String) (ws : Nat) (v : Nat → Nat)
    (T : Nat) (i : Nat) (h1 : ¬ v i = ws) (h2 : ¬ i + 1 > T) :
    barrierLoop rank key ws v T i =
      (StoreOp.add key 0 :: (barrierLoop rank key ws v T (i + 1)).1,
       (barrierLoop rank key ws v T (i + 1)).2) := by
  rw [barrierLoop]
  simp [h1, h2]

theorem barrierLoop_shape (rank : Nat) (key : String) (ws : Nat) (v : Nat → Nat)
    (T : Nat) (i : Nat) :
    (∀ op ∈ (barrierLoop rank key ws v T i).1, op = StoreOp.add key 0) ∧
    (∀ j, (barrierLoop rank key ws v T i).2 = .ok j →
        j = i + (barrierLoop rank key ws v T i).1.length ∧ v j = ws) ∧
    (∀ e, (barrierLoop rank key ws v T i).2 = .error e →
        e = ⟨rank, key, ws, v (i + (barrierLoop rank key ws v T i).1.length), T⟩ ∧
        i + (barrierLoop rank key ws v T i).1.length > T) := by
  induction i using barrierLoop.induct rank key ws v T with
  | case1 x h =>
    rw [barrierLoop_eq_done rank key ws v T x h]
    simp [h]
  | case2 x h1 h2 =>
    rw [barrierLoop_eq_timeout rank key ws v T x h1 h2]
    refine ⟨by simp, by simp, fun e he => ?_⟩
    simp only [List.length_cons, List.length_nil] at *
    refine ⟨?_, by omega⟩
    simp at he
    rw [← he]
  | case3 x h1 h2 ih =>
    rw [barrierLoop_eq_step rank key ws v T x h1 h2]
    obtain ⟨ihTr, ihOk, ihErr⟩ := ih
    refine ⟨?_, fun j hj => ?_, fun e he => ?_⟩
    · intro op hop
      rcases List.mem_cons.mp hop with h | h
      · exact h
      · exact ihTr op h
    · obtain ⟨h3, h4⟩ := ihOk j hj
      refine ⟨?_, h4⟩
      simp only [List.length_cons]
      omega
    · obtain ⟨h3, h4⟩ := ihErr e he
      simp only [List.length_cons]
      have hidx : x + ((barrierLoop rank key ws v T (x + 1)).1.length + 1) =
          x + 1 + (barrierLoop rank key ws v T (x + 1)).1.length := by omega
      rw [hidx]
      exact ⟨h3, by omega⟩

/-- C6: every store-based-barrier call first increments the counter at the
key derived from the fixed prefix and the current group-creation counter, then
polls that key only via the store's `add(key, 0)` primitive (never a plain
read); it returns only once the observed counter equals the default group's
world size, and on timeout it raises an error reporting the rank, the key,
the world size and the last observed counter. -/
theorem c6_store_barrier_protocol (rank gc ws T : Nat) (v : Nat → Nat) :
    (store_based_barrier rank gc ws v T).1.head? =
        some (StoreOp.add (barrierStoreKey gc) 1) ∧
    (∀ op ∈ (store_based_barrier rank gc ws v T).1.tail,
        op = StoreOp.add (barrierStoreKey gc) 0) ∧
    (∀ j, (store_based_barrier rank gc ws v T).2 = .ok j →
        v j = ws ∧ j + 2 = (store_based_barrier rank gc ws v T).1.length) ∧
    (∀ e, (store_based_barrier rank gc ws v T).2 = .error e →
        e.rank = rank ∧ e.key = barrierStoreKey gc ∧ e.worldSize = ws ∧
        e.workerCount = v ((store_based_barrier rank gc ws v T).1.length - 2) ∧
        (store_based_barrier rank gc ws v T).1.length - 2 > T) := by
  obtain ⟨hTr, hOk, hErr⟩ := barrierLoop_shape rank (barrierStoreKey gc) ws v T 0
  unfold store_based_barrier
  refine ⟨rfl, ?_, fun j hj => ?_, fun e he => ?_⟩
  · intro op hop
    rcases List.mem_cons.mp hop with h | h
    · exact h
    · exact hTr op h
  · obtain ⟨h1, h2⟩ := hOk j hj
    refine ⟨h2, ?_⟩
    simp only [List.length_cons]
    omega
  · obtain ⟨h1, h2⟩ := hErr e he
    rw [h1]
    refine ⟨rfl, rfl, rfl, ?_, ?_⟩
    · simp only [List.length_cons]
      congr 1
      omega
    · simp only [List.length_cons]
      omega

/-- Witness for C6: with a counter that reads 1 then 3 and world size 3, the
barrier returns after the second read, which observed the world size. -/
theorem c6_store_barrier_protocol_witness :
    vEx 1 = 3 ∧ 1 + 2 = (store_based_barrier 0 7 3 vEx 5).1.length :=
  (c6_store_barrier_protocol 0 7 3 5 vEx).2.2.1 1
    (by simp [store_based_barrier, barrierLoop, vEx])

theorem assocLookup_mem {κ α : Type} [DecidableEq κ] (d : List (κ × α)) (k : κ) (v : α)
    (h : assocLookup d k = some v) : (k, v) ∈ d := by
  induction d with
  | nil => simp [assocLookup] at h
  | cons p rest ih =>
    obtain ⟨a, b⟩ := p
    by_cases hak : a = k
    · subst hak
      simp [assocLookup] at h
      simp [h]
    · simp [assocLookup, hak] at h
      exact List.mem_cons_of_mem _ (ih h)

theorem mem_assocKeys_insert {κ α : Type} [DecidableEq κ] (d : List (κ × α)) (k k' : κ)
    (v : α) : k' ∈ (assocInsert d k v).map Prod.fst ↔ k' ∈ d.map Prod.fst ∨ k' = k := by
  induction d with
  | nil => simp [assocInsert]
  | cons p rest ih =>
    obtain ⟨a, b⟩ := p
    by_cases hak : a = k
    · subst hak
      simp [assocInsert]
      tauto
    · simp [assocInsert, hak, ih]
      tauto

theorem assocKeys_insert_nodup {κ α : Type} [DecidableEq κ] (d : List (κ × α)) (k : κ)
    (v : α) (h : (d.map Prod.fst).Nodup) : ((assocInsert d k v).map Prod.fst).Nodup := by
  induction d with
  | nil => simp [assocInsert]
  | cons p rest ih =>
    obtain ⟨a, b⟩ := p
    rw [List.map_cons, List.nodup_cons] at h
    by_cases hak : a = k
    · subst hak
      simpa [assocInsert] using h
    · simp only [assocInsert, if_neg hak, List.map_cons, List.nodup_cons]
      refine ⟨?_, ih h.2⟩
      intro hmem
      rcases (mem_assocKeys_insert rest k a v).mp hmem with h' | h'
      · exact h.1 h'
      · exact hak h'

theorem mem_assocInsert {κ α : Type} [DecidableEq κ] (d : List (κ × α)) (k : κ) (v : α)
    (hnd : (d.map Prod.fst).Nodup) (p : κ × α) :
    p ∈ assocInsert d k v ↔ p = (k, v) ∨ (p ∈ d ∧ p.1 ≠ k) := by
  obtain ⟨p1, p2⟩ := p
  induction d with
  | nil => simp [assocInsert]
  | cons q rest ih =>
    obtain ⟨a, b⟩ := q
    rw [List.map_cons, List.nodup_cons] at hnd
    by_cases hak : a = k
    · subst hak
      have heq : assocInsert ((a, b) :: rest) a v = (a, v) :: rest := by
        simp [assocInsert]
      rw [heq]
      simp only [List.mem_cons]
      constructor
      · rintro (h | h)
        · exact Or.inl h
        · refine Or.inr ⟨Or.inr h, fun hpk => ?_⟩
          have hmm : p1 ∈ List.map Prod.fst rest := List.mem_map_of_mem Prod.fst h
          rw [hpk] at hmm
          exact hnd.1 hmm
      · rintro (h | ⟨h1 | h1, h2⟩)
        · exact Or.inl h
        · exact absurd (congrArg Prod.fst h1) h2
        · exact Or.inr h1
    · simp only [assocInsert, if_neg hak, List.mem_cons, ih hnd.2]
      constructor
      · rintro (h | h | h)
        · have hp1 : p1 = a := congrArg Prod.fst h
          exact Or.inr ⟨Or.inl h, fun hh => hak (hp1 ▸ hh)⟩
        · exact Or.inl h
        · exact Or.inr ⟨Or.inr h.1, h.2⟩
      · rintro (h | ⟨h1 | h1, h2⟩)
        · exact Or.inr (Or.inl h)
        · exact Or.inl h1
        · exact Or.inr (Or.inr ⟨h1, h2⟩)

/-- Value-injectivity: in a rank map, distinct entries carry distinct
group-local ranks. -/
def valInj (d : List (Nat × Nat)) : Prop := ∀ p ∈ d, ∀ q ∈ d, p.2 = q.2 → p = q

theorem rankMapAux_inv (l : List Nat) : ∀ (i : Nat) (d : List (Nat × Nat)),
    (d.map Prod.fst).Nodup → (∀ p ∈ d, p.2 < i) → valInj d →
    ((rankMapAux l i d).map Prod.fst).Nodup ∧
      (∀ p ∈ rankMapAux l i d, p.2 < i + l.length) ∧ valInj (rankMapAux l i d) := by
  induction l with
  | nil =>
    intro i d h1 h2 h3
    exact ⟨h1, by simpa [rankMapAux] using h2, h3⟩
  | cons g rest ih =>
    intro i d h1 h2 h3
    have hnd' := assocKeys_insert_nodup d g i h1
    have hb' : ∀ p ∈ assocInsert d g i, p.2 < i + 1 := by
      intro p hp
      rcases (mem_assocInsert d g i h1 p).mp hp with h | ⟨h, _⟩
      · simp [h]
      · exact Nat.lt_succ_of_lt (h2 p h)
    have hv' : valInj (assocInsert d g i) := by
      intro p hp q hq hpq
      rcases (mem_assocInsert d g i h1 p).mp hp with h | ⟨h, _⟩ <;>
        rcases (mem_assocInsert d g i h1 q).mp hq with h' | ⟨h', _⟩
      · rw [h, h']
      · exfalso
        have hq2 := h2 q h'
        rw [h] at hpq
        simp only at hpq
        omega
      · exfalso
        have hp2 := h2 p h
        rw [h'] at hpq
        simp only at hpq
        omega
      · exact h3 p h q h' hpq
    rw [rankMapAux]
    have hres := ih (i + 1) (assocInsert d g i) hnd' hb' hv'
    refine ⟨hres.1, ?_, hres.2.2⟩
    intro p hp
    have := hres.2.1 p hp
    simp only [List.length_cons]
    omega

theorem rankMapAux_lookup_isSome_mono (l : List Nat) : ∀ (i : Nat) (d : List (Nat × Nat))
    (k : Nat), (assocLookup d k).isSome → (assocLookup (rankMapAux l i d) k).isSome := by
  induction l with
  | nil =>
    intro i d k h
    rw [rankMapAux]
    exact h
  | cons g rest ih =>
    intro i d k h
    rw [rankMapAux]
    apply ih
    rw [assocLookup_insert]
    by_cases hk : g = k
    · simp [hk]
    · simpa [hk] using h

theorem rankMapAux_lookup_isSome (l : List Nat) : ∀ (i : Nat) (d : List (Nat × Nat))
    (r : Nat), r ∈ l → (assocLookup (rankMapAux l i d) r).isSome := by
  induction l with
  | nil => intro i d r h; simp at h
  | cons g rest ih =>
    intro i d r h
    rw [rankMapAux]
    rcases List.mem_cons.mp h with h | h
    · subst h
      apply rankMapAux_lookup_isSome_mono
      simp [assocLookup_insert]
    · exact ih (i + 1) _ r h

theorem find_first_unique {α : Type} (P : α → Bool) (d : List α) (x : α)
    (hx : x ∈ d) (hP : P x = true) (huniq : ∀ p ∈ d, P p = true → p = x) :
    d.find? P = some x := by
  induction d with
  | nil => simp at hx
  | cons a rest ih =>
    by_cases hPa : P a = true
    · have hax : a = x := huniq a (List.mem_cons_self a rest) hPa
      rw [List.find?_cons_of_pos _ hPa, hax]
    · have hax : x ≠ a := fun h => hPa (h ▸ hP)
      have hx' : x ∈ rest := by
        rcases List.mem_cons.mp hx with h | h
        · exact absurd h hax
        · exact h
      rw [List.find?_cons_of_neg _ (by simpa using hPa)]
      exact ih hx' (fun p hp hPp => huniq p (List.mem_cons_of_mem _ hp) hPp)

/-- Round trip through a rank map: a member global rank maps to a group-local
rank whose first preimage in the map (in insertion order) is that global rank
again. -/
theorem rankMapOf_round_trip (l : List Nat) (r : Nat) (hr : r ∈ l) :
    ∃ v, assocLookup (rankMapOf l) r = some v ∧
      (rankMapOf l).find? (fun p => p.2 = v) = some (r, v) := by
  have hsome := rankMapAux_lookup_isSome l 0 [] r hr
  obtain ⟨v, hv⟩ := Option.isSome_iff_exists.mp hsome
  refine ⟨v, hv, ?_⟩
  have hmem : (r, v) ∈ rankMapOf l := assocLookup_mem _ _ _ hv
  obtain ⟨hnd, _, hinj⟩ := rankMapAux_inv l 0 []
    (by simp) (by simp) (fun p hp => by simp at hp)
  apply find_first_unique
  · exact hmem
  · simp
  · intro p hp hPp
    have hpv : p.2 = v := by simpa using hPp
    exact hinj p hp (r, v) hmem hpv

theorem rankMapAux_lookup_not_mem (l : List Nat) : ∀ (i : Nat) (d : List (Nat × Nat))
    (k : Nat), k ∉ l → assocLookup (rankMapAux l i d) k = assocLookup d k := by
  induction l with
  | nil => intro i d k _; simp [rankMapAux]
  | cons g rest ih =>
    intro i d k h
    have hk : k ∉ rest := fun hh => h (List.mem_cons_of_mem _ hh)
    have hgk : g ≠ k := fun hh => h (hh ▸ List.mem_cons_self g rest)
    rw [rankMapAux, ih (i + 1) _ k hk, assocLookup_insert]
    simp [hgk]

theorem rankMapAux_lookup_nodup (l : List Nat) (hnd : l.Nodup) : ∀ (r : Nat), r ∈ l →
    ∀ (i : Nat) (d : List (Nat × Nat)),
    assocLookup (rankMapAux l i d) r = some (i + l.indexOf r) := by
  induction l with
  | nil => intro r h; simp at h
  | cons g rest ih =>
    intro r h i d
    simp only [List.nodup_cons] at hnd
    by_cases hrg : r = g
    · subst hrg
      rw [rankMapAux, rankMapAux_lookup_not_mem rest (i + 1) _ r hnd.1,
        assocLookup_insert]
      simp [List.indexOf_cons_self]
    · have hr' : r ∈ rest := by
        rcases List.mem_cons.mp h with h' | h'
        · exact absurd h' hrg
        · exact h'
      rw [rankMapAux, ih hnd.2 r hr' (i + 1) _,
        List.indexOf_cons_ne rest (fun hh => hrg hh.symm)]
      congr 1
      omega

/-- With distinct ranks, the rank map sends each global rank to its index in
the rank list. -/
theorem rankMapOf_lookup_indexOf (l : List Nat) (hnd : l.Nodup) (r : Nat) (hr : r ∈ l) :
    assocLookup (rankMapOf l) r = some (l.indexOf r) := by
  simpa [rankMapOf] using rankMapAux_lookup_nodup l hnd r hr 0 []

/-- What a successful auto-named helper call did to the registries: it never
touches the rank-map registry or the world pointer; a constructed handle is
recorded in the backend/store and name registries; the sentinel leaves both
unchanged. -/
theorem helper_inv (st : DistState) (ws : Int) (rk : Option Nat) (gr : List Nat)
    (b : String) (store : Option Nat) (st1 : DistState) (g : PGHandle)
    (h : new_process_group_helper st ws rk gr b store "" = (st1, .ok g)) :
    st1.world = st.world ∧ st1.pg_group_ranks = st.pg_group_ranks ∧
    (g ≠ PGHandle.nonMember →
      (assocLookup st1.pg_map g).isSome ∧ (assocLookup st1.pg_names g).isSome) ∧
    (g = PGHandle.nonMember → st1.pg_map = st.pg_map ∧ st1.pg_names = st.pg_names) := by
  unfold new_process_group_helper at h
  simp only [MPI_AVAILABLE, if_pos rfl, not_true, if_neg, ite_false, reduceIte] at h
  split at h
  · exact absurd h (by simp)
  · split at h
    · exact absurd h (by simp)
    · split at h
      · split at h
        · rw [Prod.mk.injEq] at h
          obtain ⟨hst, hg⟩ := h
          rw [Except.ok.injEq] at hg
          subst hg
          refine ⟨by rw [← hst], by rw [← hst], fun hne => absurd rfl hne, fun _ => ?_⟩
          rw [← hst]
          exact ⟨rfl, rfl⟩
        · rw [Prod.mk.injEq] at h
          obtain ⟨hst, hg⟩ := h
          rw [Except.ok.injEq] at hg
          subst hg
          refine ⟨by rw [← hst], by rw [← hst], fun hne => ?_, fun hne => absurd hne (by simp)⟩
          rw [← hst]
          simp [assocLookup_insert_self]
      · split at h
        · rw [Prod.mk.injEq] at h
          obtain ⟨hst, hg⟩ := h
          rw [Except.ok.injEq] at hg
          subst hg
          refine ⟨by rw [← hst], by rw [← hst], fun hne => ?_, fun hne => absurd hne (by simp)⟩
          rw [← hst]
          simp [assocLookup_insert_self]
        · split at h
          · exact absurd h (by simp)
          · split at h
            · rw [Prod.mk.injEq] at h
              obtain ⟨hst, hg⟩ := h
              rw [Except.ok.injEq] at hg
              subst hg
              refine ⟨by rw [← hst], by rw [← hst], fun hne => absurd rfl hne, fun _ => ?_⟩
              rw [← hst]
              exact ⟨rfl, rfl⟩
            · rw [Prod.mk.injEq] at h
              obtain ⟨hst, hg⟩ := h
              rw [Except.ok.injEq] at hg
              subst hg
              refine ⟨by rw [← hst], by rw [← hst], fun hne => ?_,
                fun hne => absurd hne (by simp)⟩
              rw [← hst]
              simp [assocLookup_insert_self]

/-- Inversion of a successful `new_group` call with an explicit rank list:
it ran the helper on the sorted rank list with an auto-generated name and then
unconditionally recorded the rank map of the sorted list under the returned
handle — whichever handle that was. -/
theorem new_group_inv (st : DistState) (ranks : List Nat) (bo : Option String)
    (st' : DistState) (g : PGHandle)
    (h : new_group st (some ranks) bo = (st', .ok g)) :
    ∃ (ws : Int) (rk : Option Nat) (be : String) (store : Option Nat) (st1 : DistState),
      new_process_group_helper st ws rk (sortedRanks ranks) be store "" = (st1, .ok g) ∧
      st' = { st1 with pg_group_ranks := assocInsert st1.pg_group_ranks g (rankMapOf (sortedRanks ranks)) } := by
  simp only [new_group] at h
  split at h
  · exact absurd h (by simp)
  · split at h
    · exact absurd h (by simp)
    · rename_i db ds hlook
      split at h
      · exact absurd h (by simp)
      · rename_i ranks1 gws grk heq
        have hr1 : ranks1 = sortedRanks ranks := by
          repeat' split at heq
          all_goals simp_all
        subst hr1
        split at h
        · exact absurd h (by simp)
        · rename_i be2 hbe
          split at h
          · exact absurd h (by simp)
          · rename_i pg heq3
            rw [Prod.mk.injEq] at h
            obtain ⟨hst, hg⟩ := h
            rw [Except.ok.injEq] at hg
            subst hg
            exact ⟨gws, grk, be2, ds,
              (new_process_group_helper st gws grk (sortedRanks ranks) be2 ds).1,
              by rw [← heq3], hst.symm⟩

/-- C2: for every subgroup created by `new_group` and every member global
rank `r`, mapping `r` to its group-local rank and back is the identity:
`_get_global_rank(g, _get_group_rank(g, r)) == r`. -/
theorem c2_rank_round_trip (st st' : DistState) (ranks : List Nat) (bo : Option String)
    (g : PGHandle) (r : Nat)
    (h : new_group st (some ranks) bo = (st', .ok g))
    (hw : isWorldHandle st' g = false) (hr : r ∈ ranks) :
    ∃ v, getGroupRank st' g r = .ok v ∧ getGlobalRank st' g v = .ok r := by
  obtain ⟨ws, rk, be, store, st1, hhelp, hst⟩ := new_group_inv st ranks bo st' g h
  have hmem : r ∈ sortedRanks ranks := by
    unfold sortedRanks
    exact (List.perm_insertionSort _ ranks).mem_iff.mpr hr
  obtain ⟨v, hv, hfind⟩ := rankMapOf_round_trip (sortedRanks ranks) r hmem
  have hlook : assocLookup st'.pg_group_ranks g = some (rankMapOf (sortedRanks ranks)) := by
    rw [hst]
    exact assocLookup_insert_self _ _ _
  refine ⟨v, ?_, ?_⟩
  · simp [getGroupRank, hw, hlook, hv]
  · simp [getGlobalRank, hw, hlook, hfind]

/-- Witness for C2: the two-rank subgroup `[0, 1]` of `stW` round-trips the
member rank 0. -/
theorem c2_rank_round_trip_witness :
    ∃ v, getGroupRank (new_group stW (some [0, 1]) none).1 (PGHandle.pg 1) 0 = .ok v ∧
      getGlobalRank (new_group stW (some [0, 1]) none).1 (PGHandle.pg 1) v = .ok 0 :=
  c2_rank_round_trip stW (new_group stW (some [0, 1]) none).1 [0, 1] none
    (PGHandle.pg 1) 0 (by rfl) (by rfl) (by decide)

/-- C3 counterexample: on a rank that is not a member of the new group
(`stW` has global rank 0, the group is `[1]`), `new_group` returns the
`NON_GROUP_MEMBER` sentinel yet adds a rank-map registry entry keyed by the
sentinel, while the backend/store and name registries get no entry — so the
handle is registered in some but not all of the registries, and a registry
entry for the sentinel is added. -/
theorem c3_counterexample :
    (new_group stW (some [1]) none).2 = .ok PGHandle.nonMember ∧
    assocLookup (new_group stW (some [1]) none).1.pg_group_ranks PGHandle.nonMember =
      some [(1, 0)] ∧
    assocLookup (new_group stW (some [1]) none).1.pg_map PGHandle.nonMember = none ∧
    assocLookup (new_group stW (some [1]) none).1.pg_names PGHandle.nonMember = none :=
  ⟨rfl, rfl, rfl, rfl⟩

/-- C3 (amended): on a member rank, the handle returned by `new_group` is
registered in all three registries; on a non-member rank, creation returns
the `NON_GROUP_MEMBER` sentinel and adds no backend/store record and no name
entry, but it still overwrites the rank-map registry entry keyed by the
sentinel with the new group's rank map. -/
theorem c3_registration (st st' : DistState) (ranks : List Nat) (bo : Option String)
    (g : PGHandle) (h : new_group st (some ranks) bo = (st', .ok g)) :
    (g ≠ PGHandle.nonMember →
      (assocLookup st'.pg_map g).isSome ∧ (assocLookup st'.pg_names g).isSome ∧
      (assocLookup st'.pg_group_ranks g).isSome) ∧
    (g = PGHandle.nonMember →
      st'.pg_map = st.pg_map ∧ st'.pg_names = st.pg_names ∧
      assocLookup st'.pg_group_ranks g = some (rankMapOf (sortedRanks ranks))) := by
  obtain ⟨ws, rk, be, store, st1, hhelp, hst⟩ := new_group_inv st ranks bo st' g h
  obtain ⟨hw1, hr1, hmem, hnm⟩ := helper_inv st ws rk (sortedRanks ranks) be store st1 g hhelp
  constructor
  · intro hne
    obtain ⟨hm1, hm2⟩ := hmem hne
    refine ⟨?_, ?_, ?_⟩
    · rw [hst]
      exact hm1
    · rw [hst]
      exact hm2
    · rw [hst]
      simp [assocLookup_insert_self]
  · intro hnmem
    obtain ⟨hn1, hn2⟩ := hnm hnmem
    refine ⟨?_, ?_, ?_⟩
    · rw [hst]
      exact hn1
    · rw [hst]
      exact hn2
    · rw [hst]
      exact assocLookup_insert_self _ _ _

/-- Witness for C3 (amended): the non-member creation at `stW` leaves the
backend/store and name registries unchanged but records the sentinel's rank
map. -/
theorem c3_registration_witness :
    (new_group stW (some [1]) none).1.pg_map = stW.pg_map ∧
    (new_group stW (some [1]) none).1.pg_names = stW.pg_names ∧
    assocLookup (new_group stW (some [1]) none).1.pg_group_ranks PGHandle.nonMember =
      some (rankMapOf (sortedRanks [1])) :=
  (c3_registration stW (new_group stW (some [1]) none).1 [1] none PGHandle.nonMember
    (by rfl)).2 rfl

/-- C10: `new_group` sorts the caller-supplied rank list before constructing
the group and its rank map: each member's group-local rank is the index of
its global rank in the sorted list, and a permutation of the rank list
produces the identical global-to-local mapping. -/
theorem c10_new_group_sorts (st st1 st2 : DistState) (ranks ranks' : List Nat)
    (bo : Option String) (g1 g2 : PGHandle) (r : Nat)
    (hnd : ranks.Nodup) (hperm : ranks.Perm ranks')
    (h1 : new_group st (some ranks) bo = (st1, .ok g1))
    (h2 : new_group st (some ranks') bo = (st2, .ok g2)) (hr : r ∈ ranks) :
    assocLookup st1.pg_group_ranks g1 = some (rankMapOf (sortedRanks ranks)) ∧
    assocLookup (rankMapOf (sortedRanks ranks)) r = some ((sortedRanks ranks).indexOf r) ∧
    assocLookup st2.pg_group_ranks g2 = some (rankMapOf (sortedRanks ranks)) := by
  obtain ⟨_, _, _, _, sta, _, hsa⟩ := new_group_inv st ranks bo st1 g1 h1
  obtain ⟨_, _, _, _, stb, _, hsb⟩ := new_group_inv st ranks' bo st2 g2 h2
  have hsorteq : sortedRanks ranks' = sortedRanks ranks := by
    unfold sortedRanks
    haveI : IsAntisymm Nat (fun a b : Nat => a ≤ b) :=
      ⟨fun a b hab hba => Nat.le_antisymm hab hba⟩
    exact List.eq_of_perm_of_sorted
      ((List.perm_insertionSort _ ranks').trans
        (hperm.symm.trans (List.perm_insertionSort _ ranks).symm))
      (List.sorted_insertionSort _ _) (List.sorted_insertionSort _ _)
  have hnds : (sortedRanks ranks).Nodup := by
    unfold sortedRanks
    exact (List.perm_insertionSort _ ranks).nodup_iff.mpr hnd
  have hmem : r ∈ sortedRanks ranks := by
    unfold sortedRanks
    exact (List.perm_insertionSort _ ranks).mem_iff.mpr hr
  refine ⟨?_, rankMapOf_lookup_indexOf _ hnds r hmem, ?_⟩
  · rw [hsa]
    exact assocLookup_insert_self _ _ _
  · rw [hsb, hsorteq]
    exact assocLookup_insert_self _ _ _

/-- Witness for C10: creating `[1, 0]` and `[0, 1]` at `stW` yields the same
rank map, keyed by the sorted list. -/
theorem c10_new_group_sorts_witness :
    assocLookup (new_group stW (some [1, 0]) none).1.pg_group_ranks (PGHandle.pg 1) =
      some (rankMapOf (sortedRanks [1, 0])) ∧
    assocLookup (rankMapOf (sortedRanks [1, 0])) 0 = some ((sortedRanks [1, 0]).indexOf 0) ∧
    assocLookup (new_group stW (some [0, 1]) none).1.pg_group_ranks (PGHandle.pg 1) =
      some (rankMapOf (sortedRanks [1, 0])) :=
  c10_new_group_sorts stW (new_group stW (some [1, 0]) none).1
    (new_group stW (some [0, 1]) none).1 [1, 0] [0, 1] none
    (PGHandle.pg 1) (PGHandle.pg 1) 0 (by decide) (by decide) (by rfl) (by rfl) (by decide)

/-- A successful auto-named helper call for a default group registers the new
handle under the name generated from the current group counter. -/
theorem helper_default_names (st st1 : DistState) (ws : Int) (rk : Option Nat)
    (b : String) (store : Option Nat) (pg : PGHandle)
    (h : new_process_group_helper st ws rk [] b store "" = (st1, .ok pg)) :
    st1.pg_names = assocInsert st.pg_names pg (toString st.group_count) := by
  unfold new_process_group_helper at h
  simp only [MPI_AVAILABLE, List.isEmpty_nil, List.not_mem_nil, not_false_eq_true,
    and_true, not_true, Bool.not_eq_true, if_pos rfl, reduceIte] at h
  split at h
  · exact absurd h (by simp)
  · split at h
    · exact absurd h (by simp)
    · split at h
      · rw [Prod.mk.injEq] at h
        obtain ⟨hst, hg⟩ := h
        rw [Except.ok.injEq] at hg
        subst hg
        rw [← hst]
      · rw [Prod.mk.injEq] at h
        obtain ⟨hst, hg⟩ := h
        rw [Except.ok.injEq] at hg
        subst hg
        rw [← hst]

/-- After a fresh initialization (naming counter 0, no explicit name), the
world group is registered under the name `"0"`. -/
theorem init_names (st0 stInit : DistState) (b : String) (ws rk : Int) (s : Nat)
    (gW : PGHandle) (hc : st0.group_count = 0)
    (h : init_process_group st0 b ws rk s "" = (stInit, .ok gW)) :
    assocLookup stInit.pg_names gW = some "0" := by
  unfold init_process_group at h
  split at h
  · exact absurd h (by simp)
  · split at h
    · exact absurd h (by simp)
    · split at h
      · exact absurd h (by simp)
      · split at h
        · exact absurd h (by simp)
        · rename_i be hbe
          split at h
          · split at h
            · exact absurd h (by simp)
            · exact absurd h (by simp)
            · rename_i st1 wid heqPair
              simp only [Prod.mk.injEq, Except.ok.injEq] at h
              obtain ⟨hst, hg⟩ := h
              subst hg
              rw [← hst]
              have hn := helper_default_names st0 st1 (-1) none backendMPI none
                (PGHandle.pg wid) heqPair
              show assocLookup st1.pg_names (PGHandle.pg wid) = some "0"
              rw [hn, hc]
              exact assocLookup_insert_self _ _ _
          · split at h
            · exact absurd h (by simp)
            · exact absurd h (by simp)
            · rename_i st1 wid heqPair
              simp only [Prod.mk.injEq, Except.ok.injEq] at h
              obtain ⟨hst, hg⟩ := h
              subst hg
              rw [← hst]
              have hn := helper_default_names
                { st0 with globalRank := rk.toNat, worldSize := ws.toNat } st1 ws
                (some rk.toNat) be (some s) (PGHandle.pg wid) heqPair
              show assocLookup st1.pg_names (PGHandle.pg wid) = some "0"
              rw [hn]
              show assocLookup (assocInsert st0.pg_names (PGHandle.pg wid)
                (toString st0.group_count)) (PGHandle.pg wid) = some "0"
              rw [hc]
              exact assocLookup_insert_self _ _ _

/-- C4: destroying the default/world group clears all three registries and
resets the automatic naming counter to zero (whether addressed as `None` or
by the world handle), so that after a fresh initialization the first group
created without an explicit name is registered under the name `"0"`. -/
theorem c4_destroy_world_resets (st stInit : DistState) (w : Nat) (gW : PGHandle)
    (b : String) (ws rk : Int) (s : Nat)
    (hw : st.world = some w) (hm : assocLookup st.pg_map (PGHandle.pg w) ≠ none)
    (hinit : init_process_group (destroy_process_group st none).1 b ws rk s "" =
      (stInit, .ok gW)) :
    (destroy_process_group st none).2 = .ok () ∧
    (destroy_process_group st none).1.pg_map = [] ∧
    (destroy_process_group st none).1.pg_names = [] ∧
    (destroy_process_group st none).1.pg_group_ranks = [] ∧
    (destroy_process_group st none).1.group_count = 0 ∧
    destroy_process_group st (some (PGHandle.pg w)) = destroy_process_group st none ∧
    assocLookup stInit.pg_names gW = some "0" := by
  have hdn : destroy_process_group st none = (clearedState st, .ok ()) := by
    unfold destroy_process_group clearedState
    simp [hw, hm]
  have hdw : destroy_process_group st (some (PGHandle.pg w)) =
      destroy_process_group st none := by
    rw [hdn]
    unfold destroy_process_group clearedState
    simp [hw, hm]
  refine ⟨by rw [hdn], by rw [hdn]; rfl, by rw [hdn]; rfl, by rw [hdn]; rfl,
    by rw [hdn]; rfl, hdw, ?_⟩
  exact init_names _ stInit b ws rk s gW (by rw [hdn]; rfl) hinit

/-- Witness for C4: destroying `stW`'s world group and re-initializing with
gloo registers the new world group under the name `"0"`. -/
theorem c4_destroy_world_resets_witness :
    (destroy_process_group stW none).1.pg_names = [] ∧
    assocLookup (init_process_group (destroy_process_group stW none).1
      "gloo" 2 0 0 "").1.pg_names (PGHandle.pg 1) = some "0" := by
  have h := c4_destroy_world_resets stW
    (init_process_group (destroy_process_group stW none).1 "gloo" 2 0 0 "").1 0
    (PGHandle.pg 1) "gloo" 2 0 0 rfl (by decide) (by rfl)
  exact ⟨h.2.2.1, h.2.2.2.2.2.2⟩

end DistC10d
